import Mathlib

/-!
Verification of the `args-and-envs` command-line / environment-variable
resolver (`src/parser.ts`).  The definitions below are a shallow embedding
of the parser module: JavaScript runtime values are modelled by `JVal`,
JS plain objects (`Record<string, T>`) by insertion-ordered association
lists, and the `Parser` class by an explicit state record with one Lean
function per method.  Handlers and validators are modelled as Lean
functions returning the same closed set of results the source accepts.
-/

set_option maxRecDepth 4096

namespace ArgsAndEnvs

/-- JavaScript runtime values that can flow through the parser:
`ArgType = string|number|boolean|string[]` plus the runtime values
`undefined`, `null` and `NaN` that the implementation can actually
produce (e.g. `argv[++argIdx]` past the end of the array, or
`Number.parseInt` on a non-numeric string). Arrays may nest because the
coercion phase can push an array onto an array. -/
inductive JVal where
  | str (s : String)
  | num (n : Int)
  | nan
  | bool (b : Bool)
  | arr (xs : List JVal)
  | undef
  | null

/-- JavaScript truthiness of a `JVal`. -/
def JVal.truthy : JVal → Bool
  | .str s => s ≠ ""
  | .num n => n ≠ 0
  | .nan => false
  | .bool b => b
  | .arr _ => true
  | .undef => false
  | .null => false

/-- One array element under `Array.prototype.toString`
(`null`/`undefined` elements render as the empty string), with the
element renderer passed in. -/
def jsElemStr (f : JVal → String) : JVal → String
  | .null => ""
  | .undef => ""
  | v => f v

/-- `Array.prototype.toString`: elements joined with `","`, with the
element renderer passed in. -/
def jsArrJoin (f : JVal → String) : List JVal → String
  | [] => ""
  | [x] => jsElemStr f x
  | x :: y :: xs => jsElemStr f x ++ "," ++ jsArrJoin f (y :: xs)

/-- `String(v)` with an explicit recursion budget for nested arrays; the
budget makes the recursion through the nested `arr` constructor
structural, and it only needs to reach the array-nesting depth of the
value (`jsToString` passes exactly that). -/
def jsToStringF : Nat → JVal → String
  | _, .str s => s
  | _, .num n => toString n
  | _, .nan => "NaN"
  | _, .bool b => if b then "true" else "false"
  | _, .undef => "undefined"
  | _, .null => "null"
  | 0, .arr _ => ""
  | fuel + 1, .arr xs => jsArrJoin (jsToStringF fuel) xs

mutual

/-- Array-nesting depth of the elements of an array value. -/
def JVal.depthArr : List JVal → Nat
  | [] => 0
  | x :: t => max (JVal.depthVal x) (JVal.depthArr t)

/-- Array-nesting depth of a value (0 for non-arrays). -/
def JVal.depthVal : JVal → Nat
  | .arr xs => JVal.depthArr xs + 1
  | _ => 0

end

/-- Array-nesting depth of a value, dispatching on the head constructor
so that non-array values need no recursion. -/
def JVal.depth (v : JVal) : Nat :=
  match v with
  | .arr xs => JVal.depthArr xs + 1
  | _ => 0

/-- JavaScript `String(v)` / template-literal coercion.  For arrays this
is `Array.prototype.toString`: elements joined with `","`, with `null`
and `undefined` elements rendered as the empty string (the budget
`JVal.depth v` covers every nested array). -/
def JVal.jsToString (v : JVal) : String :=
  jsToStringF (JVal.depth v) v

/-- A JS plain object `Record<string, α>` with string keys, modelled as an
insertion-ordered association list without duplicate keys (all objects in
the parser are built from `{}` by property assignment). -/
def JsRecord (α : Type) : Type := List (String × α)

namespace JsRecord

/-- The empty object `{}`. -/
def empty {α : Type} : JsRecord α := []

/-- Property read, `o[k]`, as an `Option` (`none` models a missing key). -/
def get? {α : Type} : JsRecord α → String → Option α
  | [], _ => none
  | (k', v) :: t, k => if k' = k then some v else get? t k

/-- `Object.hasOwn(o, k)`. -/
def hasOwn {α : Type} (r : JsRecord α) (k : String) : Bool :=
  (r.get? k).isSome

/-- Property assignment `o[k] = v`: updates the value in place when the key
exists (keeping its position in insertion order), appends otherwise. -/
def set {α : Type} : JsRecord α → String → α → JsRecord α
  | [], k, v => [(k, v)]
  | (k', v') :: t, k, v =>
    if k' = k then (k, v) :: t else (k', v') :: set t k v

/-- `Object.keys(o)`, in insertion order. -/
def keys {α : Type} (r : JsRecord α) : List String :=
  r.map (·.1)

/-- The number of entries, `Object.keys(o).length`. -/
def size {α : Type} (r : JsRecord α) : Nat :=
  r.length

theorem get?_set_self {α : Type} (r : JsRecord α) (k : String) (v : α) :
    (r.set k v).get? k = some v := by
  induction r with
  | nil => simp [set, get?]
  | cons hd t ih =>
    by_cases h : hd.1 = k
    · simp [set, get?, h]
    · simp [set, get?, h, ih]

theorem get?_set_ne {α : Type} (r : JsRecord α) (k k' : String) (v : α)
    (h : k' ≠ k) : (r.set k' v).get? k = r.get? k := by
  induction r with
  | nil => simp [set, get?, h]
  | cons hd t ih =>
    by_cases hh : hd.1 = k'
    · simp [set, get?, hh, h]
    · simp only [set, hh, if_neg hh, get?]
      by_cases hk : hd.1 = k
      · simp [hk]
      · simp [hk, ih]

theorem hasOwn_set {α : Type} (r : JsRecord α) (k k' : String) (v : α)
    (h : r.hasOwn k = true) : (r.set k' v).hasOwn k = true := by
  by_cases hk : k' = k
  · subst hk; simp [hasOwn, get?_set_self]
  · simpa [hasOwn, get?_set_ne r k k' v hk] using h

end JsRecord

/-- `Record<string, ArgType-ish>` objects holding parsed values
(`normalizedValues`, `values`). -/
abbrev JObj := JsRecord JVal

/-- `Record<string, string>` objects holding error messages
(`errorValues`). -/
abbrev SObj := JsRecord String

/-- Read of a possibly-missing property as the JS value it evaluates to
(`undefined` when the key is absent). -/
def jsGet (r : JObj) (k : String) : JVal :=
  match r.get? k with
  | none => .undef
  | some v => v

/-- `errorValues ||= {}; errorValues[k] = msg` — the idiom the source uses
every time it records an error (`errorValues` starts out `null`). -/
def errSet (errs : Option SObj) (k msg : String) : Option SObj :=
  some ((match errs with
         | some m => m
         | none => JsRecord.empty).set k msg)

/-- Value of one hexadecimal digit, if the character is one. -/
def hexDigit? (c : Char) : Option Nat :=
  if c.isDigit then some (c.toNat - 48)
  else if 97 ≤ c.toNat ∧ c.toNat ≤ 102 then some (c.toNat - 87)
  else if 65 ≤ c.toNat ∧ c.toNat ≤ 70 then some (c.toNat - 55)
  else none

/-- `Number.parseInt(s)` (radix argument omitted): skip leading whitespace,
read an optional sign, detect a `0x`/`0X` hex prefix, then consume the
maximal run of digits of the detected radix; `none` models `NaN` (no
digits consumed).  `parseInt` never throws. -/
def jsParseIntString (s : String) : Option Int :=
  let cs := s.data.dropWhile (·.isWhitespace)
  let signed : Int × List Char :=
    match cs with
    | '-' :: t => (-1, t)
    | '+' :: t => (1, t)
    | _ => (1, cs)
  let based : Nat × List Char :=
    match signed.2 with
    | '0' :: 'x' :: t => (16, t)
    | '0' :: 'X' :: t => (16, t)
    | l => (10, l)
  let ds := based.2.takeWhile (fun c =>
    if based.1 = 16 then (hexDigit? c).isSome else c.isDigit)
  if ds.isEmpty then none
  else some (signed.1 * (ds.foldl
    (fun a c => a * (based.1 : Int) +
      (match hexDigit? c with
       | some d => (d : Int)
       | none => 0)) 0))

/-- `Number.parseInt(value)` on an arbitrary JS value: the argument is
coerced to a string first; a failed parse evaluates to `NaN`. -/
def jsParseInt (v : JVal) : JVal :=
  match jsParseIntString v.jsToString with
  | some n => .num n
  | none => .nan

/-- The module constant `TRUTHY_STRINGS` (copied character for character
from the source, including the mis-encoded final entry). -/
def TRUTHY_STRINGS : List String :=
  ["true", "yes", "y", "on",
   "1", "high", "h",
   "da", "ja", "oui", "si", "s√≠"]

/-- The module constant `FALSEY_STRINGS`. -/
def FALSEY_STRINGS : List String :=
  ["false", "no", "n", "off",
   "0", "low", "l",
   "nyet", "niet", "geen", "nein", "non"]

/-- The `arg` field of an option definition: a list of switches or the
`positional` sentinel string. -/
inductive ArgField where
  | switches (l : List String)
  | positional
deriving DecidableEq

/-- JS truthiness of the `arg` field (an array — even `[]` — and the
nonempty string `positional` are both truthy). -/
def ArgField.truthy : ArgField → Bool := fun _ => true

/-- Whether this `arg` field is the `positional` sentinel
(`o.arg === 'positional'`). -/
def ArgField.isPositional : ArgField → Bool
  | .positional => true
  | .switches _ => false

/-- Contiguous-substring test on character lists, for
`String.prototype.includes`. -/
def charsContain (hay needle : List Char) : Bool :=
  needle.isPrefixOf hay ||
    match hay with
    | [] => false
    | _ :: t => charsContain t needle

/-- `optionDef.arg?.includes(argSwitch)` from the scan phase: array
membership for a switch list, but `String.prototype.includes` — a
substring test — when `arg` is the string `positional`. -/
def ArgField.jsIncludes : ArgField → String → Bool
  | .switches l, s => l.contains s
  | .positional, s => charsContain "positional".data s.data

/-- The normalized `env` field.  `normalizeOptionDef` defaults it to the
empty array `[]` (not `null`), so the field is either a string or `[]`;
`[]` is truthy, has `length` 0, coerces to the property key `""` and
renders as `""` in template literals. -/
inductive EnvField where
  | name (s : String)
  | emptyArr
deriving DecidableEq

/-- JS truthiness of the `env` field. -/
def EnvField.truthy : EnvField → Bool
  | .name s => s ≠ ""
  | .emptyArr => true

/-- `optionDef.env.length`. -/
def EnvField.jsLength : EnvField → Nat
  | .name s => s.length
  | .emptyArr => 0

/-- Property-key / template-literal coercion of the `env` field
(`String([]) = ""`). -/
def EnvField.interp : EnvField → String
  | .name s => s
  | .emptyArr => ""

/-- `ArgTypeName`: the four recognized argument types. -/
inductive ArgTypeName where
  | boolean
  | integer
  | string
  | list
deriving DecidableEq

/-- The result a handler returns: the `next` sentinel symbol, a boxed
Symbol object (the `isSymbolObject` error branch, carrying the symbol's
description), or a `HandlerResult` object `{value, next}`. -/
inductive HandlerRes where
  | next
  | symbolObj (desc : String)
  | result (value : JVal) (nxt : Bool)

/-- A handler callback `(name, value, args) => HandlerResult|Symbol`. -/
def Handler : Type := String → JVal → JObj → HandlerRes

/-- The result a validator returns: the `next` sentinel, `null`
(valid), or an error-message string (invalid). -/
inductive ValidatorRes where
  | next
  | null
  | msg (s : String)

/-- A validator callback `(name, value, args) => string|null|Symbol`. -/
def Validator : Type := String → JVal → JObj → ValidatorRes

/-- The JS value a non-`next` validator result evaluates to (the source
stores it into `this.values`). -/
def ValidatorRes.toJVal : ValidatorRes → JVal
  | .next => .undef
  | .null => .null
  | .msg s => .str s

/-- A user-supplied `OptionsDef`.  `Option` marks fields whose absence is
observable (it changes a computed default); `handler`/`validator` lists
default to `[]` exactly as the absent field does in the source.  The
`description` field is documentation-only and never read, so it is not
modelled. -/
structure OptionsDef where
  arg : Option ArgField
  dflt : Option JVal
  env : Option String
  handler : List Handler
  name : String
  required : Bool
  silent : Bool
  type : Option ArgTypeName
  validator : List Validator

/-- A `NormalizedOptionsDef` (all defaults applied). -/
structure NormalizedOptionsDef where
  arg : ArgField
  dflt : Option JVal
  env : EnvField
  handler : List Handler
  name : String
  required : Bool
  silent : Bool
  type : ArgTypeName
  validator : List Validator

/-- `normalizeOptionDef` on a single definition (the source maps it over
arrays and wraps the result in a one-element array; `addOption` then
spreads that array).  `Object.assign` keeps a supplied field and fills the
listed defaults otherwise; the `type` default looks at the raw `arg`. -/
def normalizeOptionDef (d : OptionsDef) : NormalizedOptionsDef :=
  { arg := match d.arg with
           | some a => a
           | none => .switches []
    dflt := d.dflt
    env := match d.env with
           | some s => .name s
           | none => .emptyArr
    handler := d.handler
    name := d.name
    required := d.required
    silent := d.silent
    type := match d.type with
            | some t => t
            | none => match d.arg with
                      | some .positional => .list
                      | _ => .string
    validator := d.validator }

/-- An `OptionsDef` with only a name: every other field absent/defaulted.
Concrete definitions below are record-updates of this. -/
def optDef (name : String) : OptionsDef :=
  { arg := none, dflt := none, env := none, handler := [], name := name,
    required := false, silent := false, type := none, validator := [] }

/-- The `options` member: option name to the stack of definitions pushed
under that name, keyed in first-registration order. -/
abbrev Registry := List (String × List NormalizedOptionsDef)

/-- `this.options[name] ||= []; this.options[name].push(def)`. -/
def regPush (r : Registry) (k : String) (d : NormalizedOptionsDef) : Registry :=
  if (r.find? (·.1 = k)).isSome then
    r.map (fun e => if e.1 = k then (e.1, e.2 ++ [d]) else e)
  else
    r ++ [(k, [d])]

/-- `this.options[k]` as an `Option` (missing key → `none`). -/
def regGet (r : Registry) (k : String) : Option (List NormalizedOptionsDef) :=
  (r.find? (·.1 = k)).map (·.2)

/-- The `ParserOptions` record.  `argv`/`env` default to the process's own
argument vector and environment in the source; those are external inputs
here, so the model always receives the merged record.  The unimplemented
`global` publishing option is never read and is not modelled. -/
structure ParserOptions where
  argv : List String
  env : List (String × String)
  falsey : List String
  truthy : List String

/-- Lookup in the supplied environment mapping. -/
def envLookup (env : List (String × String)) (k : String) : Option String :=
  (env.find? (·.1 = k)).map (·.2)

/-- `arg.replace(/=.*/, '')`: the part before the first `=` (the whole
token when it has none, since the regex then does not match). -/
def beforeFirstEq (s : String) : String :=
  String.mk (s.data.takeWhile (· ≠ '='))

/-- `arg.replace(/.*=/, '')` with a greedy `.*`: the part after the *last*
`=` (the whole token when it has none, since the regex then does not
match). -/
def afterLastEq (s : String) : String :=
  if s.data.contains '=' then
    String.mk ((s.data.reverse.takeWhile (· ≠ '=')).reverse)
  else s

/-- `value.toLocaleLowerCase()` (ASCII case mapping; all the word lists
the parser compares against are ASCII). -/
def jsToLowerCase (s : String) : String :=
  String.mk (s.data.map Char.toLower)

/-- `this.parserOptions.argv[i]` (out of range → `undefined`). -/
def getArg (argv : List String) (i : Nat) : JVal :=
  match argv.get? i with
  | none => .undef
  | some s => .str s

/-- One iteration of the inner `for (const optionName of
Object.keys(this.options))` loop of the argument scan, threading
`(foundOption, argIdx, normalizedValues)`.  Note the source does not
`break` on a match: every matching option is processed, and each
non-boolean match without an `=value` suffix advances `argIdx` again
(`argv[++argIdx]`). -/
def scanMatchStep (argv : List String) (argRaw argSwitch : String)
    (st : Bool × Nat × JObj) (entry : String × List NormalizedOptionsDef) :
    Bool × Nat × JObj :=
  match entry.2 with
  | [] => st
  | optionDef :: _ =>
    if optionDef.arg.jsIncludes argSwitch then
      let idx := st.2.1
      let step : JVal × Nat :=
        if argRaw = argSwitch then
          if optionDef.type = .boolean then (.bool true, idx)
          else (getArg argv (idx + 1), idx + 1)
        else (.str (afterLastEq argRaw), idx)
      let nv := st.2.2
      let nv' :=
        if optionDef.type = .list then
          match nv.get? entry.1 with
          | some old =>
            if old.truthy then
              match old with
              | .arr xs => nv.set entry.1 (.arr (xs ++ [step.1]))
              | _ => nv
                -- a truthy non-array here would make `.push` throw in JS;
                -- unreachable through the class API
            else nv.set entry.1 (.arr [step.1])
          | none => nv.set entry.1 (.arr [step.1])
        else nv.set entry.1 step.1
      (true, step.2, nv')
    else st

/-- `Object.keys(this.options).find(k => this.options[k][0].arg ===
'positional')`.  An empty definition stack would make the source throw on
`[0].arg`; it cannot occur through the class API and is treated as a
non-match. -/
def findPositional (options : Registry) : Option String :=
  (options.find? (fun e =>
    match e.2 with
    | d :: _ => d.arg.isPositional
    | [] => false)).map (·.1)

/-- The `!foundOption` fallback: `normalizedValues[p] ||= []` followed by
`(normalizedValues[p] as string[]).push(arg)` (pushing onto a truthy
non-array would throw in JS; unreachable, modelled as a no-op). -/
def positionalPush (nv : JObj) (pname argRaw : String) : JObj :=
  let nv1 :=
    match nv.get? pname with
    | some v => if v.truthy then nv else nv.set pname (.arr [])
    | none => nv.set pname (.arr [])
  match nv1.get? pname with
  | some (.arr xs) => nv1.set pname (.arr (xs ++ [.str argRaw]))
  | _ => nv1

/-- The body of one iteration of the outer argument-scan loop, given the
token `argRaw = argv[idx]`.  Returns the `argIdx` value after the loop's
`argIdx++` update together with the updated state. -/
def processToken (options : Registry) (argv : List String) (argRaw : String)
    (idx : Nat) (nv : JObj) (errs : Option SObj) :
    Nat × JObj × Option SObj :=
  let argSwitch := beforeFirstEq argRaw
  let st := options.foldl (scanMatchStep argv argRaw argSwitch) (false, idx, nv)
  if st.1 then (st.2.1 + 1, st.2.2, errs)
  else
    match findPositional options with
    | some pname => (st.2.1 + 1, positionalPush st.2.2 pname argRaw, errs)
    | none =>
      (st.2.1 + 1, st.2.2,
        errSet errs argSwitch
          ("Unknown command line option \"" ++ argSwitch ++ "\""))

/-- The outer argument-scan loop (`for (let argIdx = 0; ...)`) of
`normalizeOptionValues`, phase 1, with an explicit iteration budget.
`argIdx` grows by at least one per iteration (the `argIdx++` update; the
inner loop only ever increments it further), so a budget of
`argv.length - idx` iterations always outlasts the loop condition and the
budget case never changes the result — it only makes the recursion
structural. -/
def scanLoopF (options : Registry) (argv : List String) :
    Nat → Nat → JObj → Option SObj → JObj × Option SObj
  | 0, _, nv, errs => (nv, errs)
  | fuel + 1, idx, nv, errs =>
    if h : idx < argv.length then
      let r := processToken options argv (argv.get ⟨idx, h⟩) idx nv errs
      scanLoopF options argv fuel r.1 r.2.1 r.2.2
    else (nv, errs)

/-- Phase 1 of `normalizeOptionValues`: scan the whole token stream. -/
def scanLoop (options : Registry) (argv : List String) (idx : Nat)
    (nv : JObj) (errs : Option SObj) : JObj × Option SObj :=
  scanLoopF options argv (argv.length - idx) idx nv errs

/-- The `Missing required argument in ...` message built by
`normalizeOptionValues` (phase 2).  The `arg` field is always truthy
(`[]` included), and because the normalized `env` default is `[]` — also
truthy — the ` or environment variable ` clause is appended (with an
empty variable name) even when no env var was configured. -/
def siteAMsg (d : NormalizedOptionsDef) : String :=
  "Missing required argument in " ++
  (if d.arg.truthy then
    "command line " ++
    (match d.arg with
     | .switches l => ", ".intercalate (l.map (fun o => "`" ++ o ++ "`"))
     | .positional => "positional") ++
    (if d.env.truthy then " or " else "")
   else "") ++
  (if d.env.truthy then "environment variable " ++ d.env.interp else "") ++
  "."

/-- One iteration of the environment-variable scan (phase 2 of
`normalizeOptionValues`): skip options already found on the command line,
otherwise adopt the env value if the variable exists, otherwise adopt a
truthy default; a required option records a missing-argument error
whenever it was not found in the environment (the `!foundInEnv` guard —
the check ignores both the argv skip path and an applied default). -/
def envScanStep (po : ParserOptions) (st : JObj × Option SObj)
    (entry : String × List NormalizedOptionsDef) : JObj × Option SObj :=
  match entry.2 with
  | [] => st
  | optionDef :: _ =>
    if st.1.hasOwn entry.1 then st
    else
      let hit : Option String :=
        if optionDef.env.truthy then envLookup po.env optionDef.env.interp
        else none
      let found := hit.isSome
      let nv1 :=
        match hit with
        | some v =>
          st.1.set optionDef.name
            (if optionDef.type = .list then .arr [.str v] else .str v)
        | none => st.1
      let nv2 :=
        if found then nv1
        else
          match optionDef.dflt with
          | some v => if v.truthy then nv1.set optionDef.name v else nv1
          | none => nv1
      let errs2 :=
        if !found && optionDef.required then
          errSet st.2 optionDef.name (siteAMsg optionDef)
        else st.2
      (nv2, errs2)

/-- Phase 2 of `normalizeOptionValues`: the loop over
`Object.keys(this.options)`. -/
def envScan (options : Registry) (po : ParserOptions)
    (st : JObj × Option SObj) : JObj × Option SObj :=
  options.foldl (envScanStep po) st

/-- One iteration of the type-coercion loop (phase 3 of
`normalizeOptionValues`) for the key `key` of the value map.  Mirrors the
source exactly, including `Number.parseInt` inside a `try`/`catch` that
can never fire (so a non-numeric integer becomes `NaN` with no error) and
the `list` branch, which appends the current value onto itself
(`normalizedValues[key].concat([value])` with `value` aliasing
`normalizedValues[key]`). -/
def coerceStep (options : Registry) (po : ParserOptions)
    (st : JObj × Option SObj) (key : String) : JObj × Option SObj :=
  match regGet options key with
  | none => st      -- `this.options[key].length` would throw; unreachable
  | some [] => st
  | some (optionDef :: _) =>
    let value := jsGet st.1 key
    match optionDef.type with
    | .boolean =>
      match value with
      | .str s =>
        let lc := jsToLowerCase s
        if po.truthy.contains lc then (st.1.set key (.bool true), st.2)
        else if po.falsey.contains lc then (st.1.set key (.bool false), st.2)
        else
          (st.1,
            errSet st.2 key
              ("Could not parse boolean argument \"" ++ key ++
                "\" value \"" ++ s ++ "\""))
      | v => (st.1.set key v, st.2)
    | .integer => (st.1.set key (jsParseInt value), st.2)
    | .list =>
      let v' :=
        if value.truthy then
          match value with
          | .arr xs => JVal.arr (xs ++ [.arr xs])
          | .str s => JVal.str (s ++ JVal.jsToString (.arr [value]))
          | v => v
            -- `.concat` on a number/boolean would throw in JS; unreachable
        else JVal.arr [value]
      (st.1.set key v', st.2)
    | .string => (st.1.set key value, st.2)

/-- Phase 3 of `normalizeOptionValues`: the loop over
`Object.keys(this.normalizedValues)` (a snapshot; the loop body only
overwrites existing keys). -/
def coercePhase (options : Registry) (po : ParserOptions)
    (st : JObj × Option SObj) : JObj × Option SObj :=
  (st.1.keys).foldl (coerceStep options po) st

/-- The `Parser` class state. -/
structure Parser where
  errorValues : Option SObj
  isParsed : Bool
  hasNewOptions : Bool
  options : Registry
  optionSequence : List String
  parserOptions : ParserOptions
  normalizedValues : Option JObj
  values : JObj

/-- `new Parser(parserOptions)` before any option is added (field
initializers of the class; `parserOptions` already merged). -/
def mkParser (po : ParserOptions) : Parser :=
  { errorValues := none
    isParsed := false
    hasNewOptions := true
    options := []
    optionSequence := []
    parserOptions := po
    normalizedValues := none
    values := [] }

/-- `hasErrors()`. -/
def Parser.hasErrors (p : Parser) : Bool :=
  match p.errorValues with
  | none => false
  | some m => if m.size > 0 then true else false

/-- `hasError(optionName)`. -/
def Parser.hasError (p : Parser) (optionName : String) : Bool :=
  match p.errorValues with
  | none => false
  | some m => m.hasOwn optionName

/-- `normalizeOptionValues()`: reset the scratch state, run phases 1–3,
then discard the whole value map when any error was recorded. -/
def Parser.normalizeOptionValues (p : Parser) : Parser :=
  let s1 := scanLoop p.options p.parserOptions.argv 0 JsRecord.empty none
  let s2 := envScan p.options p.parserOptions s1
  let s3 := coercePhase p.options p.parserOptions s2
  let nvFinal : Option JObj :=
    match s3.2 with
    | some m => if m.size > 0 then none else some s3.1
    | none => some s3.1
  { p with errorValues := s3.2, normalizedValues := nvFinal }

/-- The `Missing required ...` message built by `validateOptionValues`
(phase 4): quoted switch forms with singular/plural phrasing, and an
` or environment variable "..."` clause only when the env field has a
positive `length`. -/
def siteBMsg (d : NormalizedOptionsDef) : String :=
  "Missing required" ++
  (if d.arg.truthy then
    (match d.arg with
     | .switches [] => " argument"
     | .switches [a] => " argument \"" ++ a ++ "\""
     | .switches [a, b] => " arguments \"" ++ a ++ "\" or \"" ++ b ++ "\""
     | .switches l =>
       " arguments \"" ++ "\", \"".intercalate l.dropLast ++ "\", or \"" ++
         l.getLastD "" ++ "\""
     | .positional => " argument \"positional\"") ++
    (if d.env.truthy && d.env.jsLength > 0 then " or" else "")
   else "") ++
  (if d.env.truthy && d.env.jsLength > 0 then
    " environment variable \"" ++ d.env.interp ++ "\""
   else "") ++
  "."

/-- The inner validator loop: returns the first non-`next` result, or
`none` when the chain is exhausted with every validator deferring. -/
def runValidators (name : String) (value : JVal) (nv : JObj) :
    List Validator → Option ValidatorRes
  | [] => none
  | v :: rest =>
    match v name value nv with
    | .next => runValidators name value nv rest
    | r => some r

/-- The loop over one option's stacked definitions inside
`validateOptionValues`.  The `Bool` result is `true` when the source
executed `break validationSequence` (a validator returned a non-`next`
result: its return value is stored into `this.values` and the *entire*
validation phase stops); a missing-required error instead executes
`continue validationSequence` (result `false`). -/
def valDefsLoop (nv : JObj) :
    List NormalizedOptionsDef → Option SObj → JObj →
    Option SObj × JObj × Bool
  | [], errs, vals => (errs, vals, false)
  | d :: rest, errs, vals =>
    if d.required &&
        (match nv.get? d.name with
         | none => true
         | some .null => true
         | some .undef => true
         | some _ => false) then
      (errSet errs d.name (siteBMsg d), vals, false)
    else
      match runValidators d.name (jsGet nv d.name) nv d.validator with
      | some r => (errs, vals.set d.name r.toJVal, true)
      | none => valDefsLoop nv rest errs vals

/-- The labelled outer loop of `validateOptionValues` over
`optionSequence`, with its `optionsSeen` set and the global
`break validationSequence`. -/
def valSeq (nv : JObj) (options : Registry) :
    List String → List String → Option SObj → JObj → Option SObj × JObj
  | [], _, errs, vals => (errs, vals)
  | name :: rest, seen, errs, vals =>
    if seen.contains name then valSeq nv options rest seen errs vals
    else
      let seen' := name :: seen
      if (match errs with
          | none => false
          | some m => m.hasOwn name) then
        valSeq nv options rest seen' errs vals
      else
        match regGet options name with
        | none => valSeq nv options rest seen' errs vals
          -- `for ... of this.options[name]` would throw; unreachable
        | some defs =>
          match valDefsLoop nv defs errs vals with
          | (errs', vals', true) => (errs', vals')
          | (errs', vals', false) => valSeq nv options rest seen' errs' vals'

/-- `validateOptionValues()`.  The source throws when
`normalizedValues` is `null`; `parse` only calls it otherwise, so that
guard is modelled as the identity. -/
def Parser.validateOptionValues (p : Parser) : Parser :=
  match p.normalizedValues with
  | none => p
  | some nv =>
    let r := valSeq nv p.options p.optionSequence [] p.errorValues p.values
    { p with errorValues := r.1, values := r.2 }

/-- The outcome of walking one definition stack in
`handleOptionValues`. -/
inductive HandleOut where
  | exhausted
  | errored (desc : String)
  | commit (v : JVal)

/-- The inner handler loop of `handleOptionValues` over one definition's
handler list.  `next` (the sentinel) continues with the same
`lastResult`; a boxed Symbol records an error and breaks the whole
`handlerSequence`; a `{value, next}` result updates `lastResult` and
commits it when `next` is falsy. -/
def handlersLoop (nv : JObj) (dname : String) :
    List Handler → JVal → HandleOut
  | [], _ => .exhausted
  | h :: rest, lastResult =>
    match h dname lastResult nv with
    | .next => handlersLoop nv dname rest lastResult
    | .symbolObj desc => .errored desc
    | .result v nxt =>
      if nxt then handlersLoop nv dname rest v
      else .commit v

/-- The loop of `handleOptionValues` over one option's stacked
definitions (the stack already extended with the appended terminal
definition).  `lastResult` is re-initialized from `normalizedValues` for
every definition in the stack. -/
def handleDefsLoop (nv : JObj) (dname : String) :
    List NormalizedOptionsDef → HandleOut
  | [] => .exhausted
  | d :: rest =>
    match handlersLoop nv dname d.handler (jsGet nv dname) with
    | .exhausted => handleDefsLoop nv dname rest
    | r => r

/-- The terminal definition `handleOptionValues` appends to every stack:
`normalizeOptionDef({name, handler: [(name, value) => ({value,
next: false})]})`. -/
def defaultHandlerDef (name : String) : NormalizedOptionsDef :=
  normalizeOptionDef
    { optDef name with handler := [fun _ value _ => .result value false] }

/-- The outer loop of `handleOptionValues` over `optionSequence` with its
`optionsSeen` set. -/
def handleSeq (nv : JObj) (options : Registry) :
    List String → List String → Option SObj → JObj → Option SObj × JObj
  | [], _, errs, vals => (errs, vals)
  | name :: rest, seen, errs, vals =>
    if seen.contains name then handleSeq nv options rest seen errs vals
    else
      let seen' := name :: seen
      let defsPlus :=
        (match regGet options name with
         | some ds => ds
         | none => []) ++ [defaultHandlerDef name]
      match handleDefsLoop nv name defsPlus with
      | .errored desc =>
        handleSeq nv options rest seen'
          (errSet errs name
            ("Unknown handler return symbol for option \"" ++ name ++
              "\": Symbol(" ++ desc ++ ")"))
          vals
      | .commit v => handleSeq nv options rest seen' errs (vals.set name v)
      | .exhausted => handleSeq nv options rest seen' errs vals

/-- `handleOptionValues()` (same `normalizedValues` guard remark as for
validation). -/
def Parser.handleOptionValues (p : Parser) : Parser :=
  match p.normalizedValues with
  | none => p
  | some nv =>
    let r := handleSeq nv p.options p.optionSequence [] p.errorValues p.values
    { p with errorValues := r.1, values := r.2 }

/-- `parse()`: reset, normalize (phases 1–3), and — only when the
normalized value map survived — validate and handle; returns
`!(errorValues && Object.keys(errorValues).length > 0)` — the negation
of exactly the test `hasErrors()` performs — together with the final
state.  (`freezeValues` only freezes the JS objects and has no
observable effect here.) -/
def Parser.parse (p : Parser) : Bool × Parser :=
  let p1 : Parser := { p with errorValues := none, values := [] }
  let p2 := p1.normalizeOptionValues
  let p3 :=
    match p2.normalizedValues with
    | some _ => (p2.validateOptionValues).handleOptionValues
    | none => { p2 with values := [] }
  let p4 := { p3 with hasNewOptions := false }
  (!p4.hasErrors, p4)

/-- `reparseIfNecessary()`. -/
def Parser.reparseIfNecessary (p : Parser) : Parser :=
  if p.isParsed && p.hasNewOptions then (p.parse).2 else p

/-- `addOption(option, reparseIfNecessary)`. -/
def Parser.addOption (p : Parser) (o : OptionsDef) (reparse : Bool) : Parser :=
  let p' : Parser :=
    { p with
      options := regPush p.options o.name (normalizeOptionDef o)
      optionSequence := p.optionSequence ++ [o.name]
      hasNewOptions := true }
  if reparse then p'.reparseIfNecessary else p'

/-- `addOptions(...defs)` for one flat list of definitions. -/
def Parser.addOptionsList (p : Parser) (defs : List OptionsDef) : Parser :=
  (defs.foldl (fun q d => q.addOption d false) p).reparseIfNecessary

/-- `new Parser(parserOptions, defs)` / the façade's
`new Parser(po); parser.addOptions(...defs)` (identical states). -/
def Parser.new (po : ParserOptions) (defs : List OptionsDef) : Parser :=
  (mkParser po).addOptionsList defs

/-- The final engine state the façade inspects. -/
def engineRun (po : ParserOptions) (defs : List OptionsDef) : Parser :=
  ((Parser.new po defs).parse).2

/-- The exported façade function `parse(parserOptions, ...optionsDef)`:
run the engine once and throw `Error('Could not parse command line.',
{cause: parser.errors})` when `parser.parse()` returned `false`. -/
def parse (po : ParserOptions) (defs : List OptionsDef) :
    Except (String × Option SObj) JObj :=
  let parser := Parser.new po defs
  let r := parser.parse
  if !r.1 then .error ("Could not parse command line.", r.2.errorValues)
  else .ok r.2.values

/-! ### Well-formedness of the registry and preservation lemmas -/

/-- Every definition stored under a registry key carries that key as its
`name` — an invariant of every registry built through `addOption`
(which pushes under `option.name`). -/
def RegWF (options : Registry) : Prop :=
  ∀ e ∈ options, ∀ d ∈ e.2, d.name = e.1

theorem envScanStep_preserves (po : ParserOptions) (st : JObj × Option SObj)
    (entry : String × List NormalizedOptionsDef) (k : String)
    (hd : ∀ d ∈ entry.2, d.name = entry.1) (hk : st.1.hasOwn k = true) :
    (envScanStep po st entry).1.get? k = st.1.get? k ∧
    (envScanStep po st entry).1.hasOwn k = true := by
  rcases entry with ⟨ename, defs⟩
  cases defs with
  | nil => exact ⟨rfl, hk⟩
  | cons d rest =>
    have hdn : d.name = ename := hd d (List.mem_cons_self d rest)
    by_cases hown : st.1.hasOwn ename = true
    · simp [envScanStep, hown, hk]
    · have hne : ename ≠ k := fun he => hown (he ▸ hk)
      simp only [envScanStep, hown, Bool.false_eq_true, if_false, if_neg]
      cases hhit : (if d.env.truthy = true then envLookup po.env d.env.interp
          else none) with
      | some v =>
        simp only [hhit, Option.isSome_some, if_true]
        constructor
        · rw [hdn, JsRecord.get?_set_ne st.1 k ename _ hne]
        · rw [hdn]; exact JsRecord.hasOwn_set st.1 k ename _ hk
      | none =>
        simp only [hhit, Option.isSome_none, Bool.false_eq_true, if_false]
        cases hdflt : d.dflt with
        | none => exact ⟨rfl, hk⟩
        | some v =>
          by_cases hv : v.truthy = true
          · simp only [hv, if_true]
            constructor
            · rw [hdn, JsRecord.get?_set_ne st.1 k ename _ hne]
            · rw [hdn]; exact JsRecord.hasOwn_set st.1 k ename _ hk
          · simp only [hv]
            simp only [Bool.not_eq_true] at hv
            simp [hv, hk]

theorem envScan_preserves (po : ParserOptions) (options : Registry)
    (k : String) (hwf : RegWF options) :
    ∀ st : JObj × Option SObj, st.1.hasOwn k = true →
      (envScan options po st).1.get? k = st.1.get? k := by
  induction options with
  | nil => intro st h; rfl
  | cons e t ih =>
    intro st h
    have he : ∀ d ∈ e.2, d.name = e.1 := hwf e (List.mem_cons_self e t)
    have hwt : RegWF t := fun e' he' d hd => hwf e' (List.mem_cons_of_mem e he') d hd
    have hstep := envScanStep_preserves po st e k he h
    have h1 : envScan (e :: t) po st = envScan t po (envScanStep po st e) := rfl
    rw [h1, ih hwt _ hstep.2, hstep.1]

/-! ### Concrete inputs used by the claim theorems -/

/-- Parser options with empty argv and empty environment, with the
module's default word lists. -/
def poEmpty : ParserOptions :=
  { argv := [], env := [], falsey := FALSEY_STRINGS, truthy := TRUTHY_STRINGS }

/-- Parser options with the given argv, empty environment. -/
def poArgs (argv : List String) : ParserOptions :=
  { poEmpty with argv := argv }

def c1Def : OptionsDef :=
  { optDef "req" with arg := some (.switches ["--required"]), required := true }

def c2Defs : List OptionsDef :=
  [{ optDef "list" with arg := some (.switches ["--list"]), type := some .list }]

def c3Defs : List OptionsDef :=
  [{ optDef "int" with arg := some (.switches ["--int"]), type := some .integer }]

def c4Handler : Handler := fun _ _ _ => .result (.str "handled") false

def c4Defs : List OptionsDef :=
  [{ optDef "f" with arg := some (.switches ["--file"]), required := true, handler := [c4Handler] }]

/-- A parser whose scan phase records an unknown-option error, so
normalization discards the value map. -/
def w4Parser : Parser := mkParser (poArgs ["--nope"])

def c5ValidatorA : Validator := fun _ _ _ => .msg "value of a is bad"

def c5ValidatorB : Validator := fun _ _ _ => .msg "value of b is bad"

def c5Defs : List OptionsDef :=
  [{ optDef "a" with arg := some (.switches ["--a"]), validator := [c5ValidatorA] },
   { optDef "b" with arg := some (.switches ["--b"]), validator := [c5ValidatorB] }]

def c6Defs : List OptionsDef :=
  [{ optDef "integer" with arg := some (.switches ["--int"]), type := some .integer, dflt := some (.num 10), required := true }]

def w7def : NormalizedOptionsDef :=
  normalizeOptionDef
    { optDef "f" with arg := some (.switches ["--f"]), env := some "FENV" }

def w7opts : Registry := [("f", [w7def])]

def w7po : ParserOptions := { poEmpty with env := [("FENV", "fromEnv")] }

def w7nv : JObj := [("f", JVal.str "fromArgv")]

def c9OptA : OptionsDef := { optDef "a" with arg := some (.switches ["--a"]) }

def c9OptB : OptionsDef := { optDef "b" with dflt := some (.str "d") }

/-- A parser that has already resolved once (over the registry holding
only `c9OptA`). -/
def p9first : Parser := ((Parser.new poEmpty [c9OptA]).parse).2

def c10Defs : List OptionsDef :=
  [{ optDef "x" with arg := some (.switches ["--x"]), dflt := some (.str "") }]

/-! ### Claim theorems -/

/-- C1 (counterexample): an option with `required: true`, one switch
`--required`, no default and no argv/env value records a missing-required
error, but its message is the `normalizeOptionValues` wording
(`Missing required argument in command line ... or environment variable
.`), not the wording-table message `Missing required argument
"--required".` the claim states. -/
theorem C1_counterexample :
    (engineRun poEmpty [c1Def]).errorValues =
      some [("req",
        "Missing required argument in command line `--required` or environment variable .")] ∧
    "Missing required argument in command line `--required` or environment variable ." ≠
      "Missing required argument \"--required\"." :=
  ⟨rfl, by decide⟩

/-- C1 (amended): for every option definition with `required = true`, no
default, switch list `sws`, and no matching argv or env value, the
resolution records a missing-required error whose message is the phase-2
format: `Missing required argument in command line ` followed by the
backtick-quoted switches joined with `, `, then ` or environment
variable ` and the env-var name (empty when none is configured), then
`.` — the wording-table format appears only in the validation phase's
missing check, which is not reached in this scenario. -/
theorem C1_missing_required_message_format (name : String) (sws : List String)
    (e : String) (he : e ≠ "") :
    (engineRun poEmpty
        [{ optDef name with arg := some (.switches sws), required := true }]).errorValues =
      some [(name, "Missing required argument in command line " ++
        ", ".intercalate (sws.map (fun o => "`" ++ o ++ "`")) ++
        " or environment variable .")] ∧
    (engineRun poEmpty
        [{ optDef name with arg := some (.switches sws), env := some e, required := true }]).errorValues =
      some [(name, "Missing required argument in command line " ++
        ", ".intercalate (sws.map (fun o => "`" ++ o ++ "`")) ++
        " or environment variable " ++ e ++ ".")] := by
  constructor
  · have h1 : (engineRun poEmpty
        [{ optDef name with arg := some (.switches sws), required := true }]).errorValues =
          some [(name, siteAMsg (normalizeOptionDef
            { optDef name with arg := some (.switches sws), required := true }))] := rfl
    rw [h1]
    refine congrArg (fun s => some [(name, s)]) ?_
    simp only [siteAMsg, normalizeOptionDef, optDef, ArgField.truthy,
      EnvField.truthy, EnvField.interp]
    simp only [if_true]
    apply String.ext
    simp [String.data_append]
  · have ht : (EnvField.name e).truthy = true := by simp [EnvField.truthy, he]
    simp only [engineRun, Parser.new, Parser.addOptionsList, List.foldl,
      Parser.addOption, Parser.reparseIfNecessary, mkParser, regPush,
      normalizeOptionDef, optDef, Parser.parse, Parser.normalizeOptionValues,
      scanLoop, scanLoopF, envScan, envScanStep, coercePhase, JsRecord.keys,
      JsRecord.hasOwn, JsRecord.get?, JsRecord.set, JsRecord.empty, poEmpty,
      envLookup, errSet, siteAMsg, ArgField.truthy, EnvField.interp,
      JsRecord.size, ht]
    simp only [List.find?, Option.isSome, List.map, Option.map]
    simp
    refine congrArg (fun s => [(name, s)]) ?_
    apply String.ext
    simp [String.data_append]

/-- C1 (witness): the amended message format at the concrete option
`w` with switch `-w` and env var `WENV`. -/
theorem C1_missing_required_message_format_witness :
    ("WENV" : String) ≠ "" ∧
    ((engineRun poEmpty
        [{ optDef "w" with arg := some (.switches ["-w"]), required := true }]).errorValues =
      some [("w",
        "Missing required argument in command line `-w` or environment variable .")] ∧
    (engineRun poEmpty
        [{ optDef "w" with arg := some (.switches ["-w"]), env := some "WENV", required := true }]).errorValues =
      some [("w",
        "Missing required argument in command line `-w` or environment variable WENV.")]) :=
  ⟨by decide, C1_missing_required_message_format "w" ["-w"] "WENV" (by decide)⟩

/-- C2: for `--list=a --list=b` on a `list`-typed option, the resolved
value is not the two raw values `[a, b]`: the coercion phase appends a
nested copy of the accumulated array onto itself
(`normalizedValues[key].concat([value])` with `value` aliasing the same
array), so the committed value is `['a', 'b', ['a', 'b']]`, while the
resolution still reports success. -/
theorem C2_list_coercion_appends_nested_copy :
    (engineRun (poArgs ["--list=a", "--list=b"]) c2Defs).values.get? "list" =
      some (.arr [.str "a", .str "b", .arr [.str "a", .str "b"]]) ∧
    JVal.arr [.str "a", .str "b", .arr [.str "a", .str "b"]] ≠
      JVal.arr [.str "a", .str "b"] ∧
    (engineRun (poArgs ["--list=a", "--list=b"]) c2Defs).errorValues = none :=
  ⟨rfl, by simp, rfl⟩

/-- C3: for `--int=abc` on an `integer`-typed option, no `PARSE` error is
recorded and the resolution is reported successful: `Number.parseInt`
never throws, so the surrounding `try`/`catch` records nothing and the
resolved value is `NaN`. -/
theorem C3_integer_parse_failure_silent :
    (engineRun (poArgs ["--int=abc"]) c3Defs).errorValues = none ∧
    (engineRun (poArgs ["--int=abc"]) c3Defs).values.get? "int" = some JVal.nan ∧
    ((Parser.new (poArgs ["--int=abc"]) c3Defs).parse).1 = true :=
  ⟨rfl, rfl, rfl⟩

/-- C4 (counterexample): with argv `['--file']` (an exhausted stream) on
a required option carrying a handler, the validation phase records a
missing-required error, yet the option's handler still executes and
commits its value — a phase-4 error does not suppress handler
execution. -/
theorem C4_counterexample :
    (engineRun (poArgs ["--file"]) c4Defs).errorValues =
      some [("f", "Missing required argument \"--file\".")] ∧
    (engineRun (poArgs ["--file"]) c4Defs).values.get? "f" =
      some (.str "handled") :=
  ⟨rfl, rfl⟩

/-- C4 (amended): the handler gate covers phases 1–3 only — whenever
scanning, env fallback or coercion recorded any error (equivalently,
`normalizeOptionValues` discarded the value map), the final value
mapping is empty, so no handler output can appear; errors first recorded
during validation do not suppress handler execution. -/
theorem C4_handler_gate_is_phases_one_to_three (p : Parser)
    (h : p.normalizeOptionValues.normalizedValues = none) :
    ((p.parse).2).values = [] := by
  have h' : ({ p with errorValues := none, values := [] } : Parser).normalizeOptionValues.normalizedValues = none := h
  simp only [Parser.parse]
  split
  · next x heq => rw [h'] at heq; cases heq
  · rfl

/-- C4 (witness): the phases-1–3 gate at a parser whose scan phase
records an unknown-option error. -/
theorem C4_handler_gate_witness :
    w4Parser.normalizeOptionValues.normalizedValues = none ∧
    ((w4Parser.parse).2).values = [] :=
  ⟨rfl, C4_handler_gate_is_phases_one_to_three w4Parser rfl⟩

/-- C5: when a validator rejects (returns a message string), no
`VALIDATION` error is recorded anywhere: the rejection string is stored
transiently as the option's value, `break validationSequence` aborts the
whole validation phase (the second option's validator never runs), and
the handling phase then overwrites the stored rejection with the
original — rejected — value, so resolution reports success with both
rejected values committed. -/
theorem C5_validator_rejection_invisible :
    (engineRun (poArgs ["--a=1", "--b=2"]) c5Defs).errorValues = none ∧
    (engineRun (poArgs ["--a=1", "--b=2"]) c5Defs).values.get? "a" =
      some (.str "1") ∧
    (engineRun (poArgs ["--a=1", "--b=2"]) c5Defs).values.get? "b" =
      some (.str "2") ∧
    ((Parser.new (poArgs ["--a=1", "--b=2"]) c5Defs).parse).1 = true :=
  ⟨rfl, rfl, rfl, rfl⟩

/-- C6: an option with a configured (truthy) default and
`required: true`, absent from argv and env, still records a
missing-required error — the required check tests only `!foundInEnv`,
ignoring the applied default — and the whole resolution fails with an
empty value mapping. -/
theorem C6_required_error_despite_default :
    (engineRun poEmpty c6Defs).errorValues =
      some [("integer",
        "Missing required argument in command line `--int` or environment variable .")] ∧
    (engineRun poEmpty c6Defs).values = [] ∧
    ((Parser.new poEmpty c6Defs).parse).1 = false :=
  ⟨rfl, rfl, rfl⟩

/-- C7: during the environment-fallback phase, an option that already
received a value in the argument scan is skipped (`Object.hasOwn`
guard), so its entry in the normalized value map is left exactly as the
scan produced it — the env value is never adopted for it.  `RegWF` is
the `addOption` invariant that definitions are stored under their own
name. -/
theorem C7_argv_precedence_over_env (options : Registry) (po : ParserOptions)
    (nv : JObj) (errs : Option SObj) (k : String)
    (hwf : RegWF options) (hk : nv.hasOwn k = true) :
    (envScan options po (nv, errs)).1.get? k = nv.get? k :=
  envScan_preserves po options k hwf (nv, errs) hk

/-- C7 (witness): an option `f` with an argv-scanned value and an
existing env entry for its `FENV` variable keeps the argv value through
the env scan. -/
theorem C7_argv_precedence_over_env_witness :
    (RegWF w7opts ∧ w7nv.hasOwn "f" = true) ∧
    (envScan w7opts w7po (w7nv, none)).1.get? "f" = w7nv.get? "f" :=
  ⟨⟨by
      intro e he d hd
      simp only [w7opts, List.mem_singleton] at he
      subst he
      simp only [List.mem_singleton] at hd
      subst hd
      rfl,
    rfl⟩,
   C7_argv_precedence_over_env w7opts w7po w7nv none "f"
     (by
       intro e he d hd
       simp only [w7opts, List.mem_singleton] at he
       subst he
       simp only [List.mem_singleton] at hd
       subst hd
       rfl)
     rfl⟩

/-- C8: the façade raises exactly when the engine's error collection is
non-empty, attaching the full collection (`{cause: parser.errors}`) to
the raised error; with an empty collection it returns the resolved value
mapping. -/
theorem C8_facade_error_contract (po : ParserOptions) (defs : List OptionsDef) :
    (parse po defs =
        Except.error ("Could not parse command line.", (engineRun po defs).errorValues) ∧
      (engineRun po defs).hasErrors = true) ∨
    (parse po defs = Except.ok ((engineRun po defs).values) ∧
      (engineRun po defs).hasErrors = false) := by
  have hfst : ((Parser.new po defs).parse).1 =
      !(((Parser.new po defs).parse).2).hasErrors := rfl
  by_cases h : (((Parser.new po defs).parse).2).hasErrors = true
  · left
    refine ⟨?_, h⟩
    simp only [parse, engineRun, hfst, h, Bool.not_true, Bool.not_false]
    simp
  · right
    have hb := Bool.of_not_eq_true h
    refine ⟨?_, hb⟩
    simp only [parse, engineRun, hfst, hb, Bool.not_false, Bool.not_true]
    simp

/-- C9: after a resolution, registering a new option (here: `b` with
default `'d'`) via `addOption` with its reparse flag left at `true` does
not re-run resolution — `isParsed` is never set to `true`, so
`reparseIfNecessary` never fires — and the stale mapping without `b` is
served, although an actual re-run would resolve `b` to `'d'`. -/
theorem C9_stale_results_after_addOption :
    (p9first.addOption c9OptB true).values.get? "b" = none ∧
    (p9first.addOption c9OptB true).isParsed = false ∧
    (((p9first.addOption c9OptB true).parse).2).values.get? "b" =
      some (.str "d") :=
  ⟨rfl, rfl, rfl⟩

/-- C10 (counterexample): an option `x` with the falsy default `''` and
`required: false`, absent from argv and env, is not absent from the
resolved values: the handling phase commits the key with an undefined
value, so `Object.hasOwn(values, 'x')` holds. -/
theorem C10_counterexample :
    (engineRun poEmpty c10Defs).errorValues = none ∧
    (engineRun poEmpty c10Defs).values.hasOwn "x" = true ∧
    (engineRun poEmpty c10Defs).values.get? "x" = some JVal.undef :=
  ⟨rfl, rfl, rfl⟩

/-- C10 (amended): for every option whose configured default is falsy
and that receives no argv/env value, the default is never adopted; when
the option is also `required`, a missing-required error is recorded
despite the default and the value mapping is emptied (the option is then
truly absent); when it is not required, no error is recorded and the
option appears in the resolved mapping with an undefined value rather
than being absent. -/
theorem C10_falsy_default_behaviour (name sw : String) (dflt : JVal)
    (h : dflt.truthy = false) :
    ((engineRun poEmpty
        [{ optDef name with arg := some (.switches [sw]), dflt := some dflt, required := true }]).errorValues =
        some [(name, "Missing required argument in command line `" ++ sw ++
          "` or environment variable .")] ∧
      (engineRun poEmpty
        [{ optDef name with arg := some (.switches [sw]), dflt := some dflt, required := true }]).values = []) ∧
    ((engineRun poEmpty
        [{ optDef name with arg := some (.switches [sw]), dflt := some dflt }]).errorValues = none ∧
      (engineRun poEmpty
        [{ optDef name with arg := some (.switches [sw]), dflt := some dflt }]).values.get? name =
        some JVal.undef) := by
  constructor
  · constructor
    · simp only [engineRun, Parser.new, Parser.addOptionsList, List.foldl,
        Parser.addOption, Parser.reparseIfNecessary, mkParser, regPush,
        normalizeOptionDef, optDef, Parser.parse, Parser.normalizeOptionValues,
        scanLoop, scanLoopF, envScan, envScanStep, coercePhase, JsRecord.keys,
        JsRecord.hasOwn, JsRecord.get?, JsRecord.set, JsRecord.empty, poEmpty,
        envLookup, errSet, siteAMsg, ArgField.truthy, EnvField.truthy,
        EnvField.interp, JsRecord.size, h]
      simp only [List.find?, Option.isSome, List.map, Option.map]
      simp
      refine congrArg (fun s => [(name, s)]) ?_
      rw [show ", ".intercalate ["`" ++ sw ++ "`"] = "`" ++ sw ++ "`" from rfl]
      apply String.ext
      simp [String.data_append]
    · simp only [engineRun, Parser.new, Parser.addOptionsList, List.foldl,
        Parser.addOption, Parser.reparseIfNecessary, mkParser, regPush,
        normalizeOptionDef, optDef, Parser.parse, Parser.normalizeOptionValues,
        scanLoop, scanLoopF, envScan, envScanStep, coercePhase, JsRecord.keys,
        JsRecord.hasOwn, JsRecord.get?, JsRecord.set, JsRecord.empty, poEmpty,
        envLookup, errSet, siteAMsg, ArgField.truthy, EnvField.truthy,
        EnvField.interp, JsRecord.size, h]
      simp
  · constructor
    · simp only [engineRun, Parser.new, Parser.addOptionsList, List.foldl,
        Parser.addOption, Parser.reparseIfNecessary, mkParser, regPush,
        normalizeOptionDef, optDef, Parser.parse, Parser.normalizeOptionValues,
        scanLoop, scanLoopF, envScan, envScanStep, coercePhase, JsRecord.keys,
        JsRecord.hasOwn, JsRecord.get?, JsRecord.set, JsRecord.empty, poEmpty,
        envLookup, errSet, siteAMsg, ArgField.truthy, EnvField.truthy,
        EnvField.interp, JsRecord.size, Parser.validateOptionValues,
        Parser.handleOptionValues, valSeq, valDefsLoop, runValidators,
        handleSeq, handleDefsLoop, handlersLoop, defaultHandlerDef, jsGet,
        regGet, List.contains, List.find?, h]
      simp [valDefsLoop, runValidators, handleSeq, handleDefsLoop,
        handlersLoop, defaultHandlerDef, jsGet, JsRecord.get?, JsRecord.set,
        regGet, List.find?, normalizeOptionDef, optDef, JsRecord.get?_set_self]
    · simp only [engineRun, Parser.new, Parser.addOptionsList, List.foldl,
        Parser.addOption, Parser.reparseIfNecessary, mkParser, regPush,
        normalizeOptionDef, optDef, Parser.parse, Parser.normalizeOptionValues,
        scanLoop, scanLoopF, envScan, envScanStep, coercePhase, JsRecord.keys,
        JsRecord.hasOwn, JsRecord.get?, JsRecord.set, JsRecord.empty, poEmpty,
        envLookup, errSet, siteAMsg, ArgField.truthy, EnvField.truthy,
        EnvField.interp, JsRecord.size, Parser.validateOptionValues,
        Parser.handleOptionValues, valSeq, valDefsLoop, runValidators,
        handleSeq, handleDefsLoop, handlersLoop, defaultHandlerDef, jsGet,
        regGet, List.contains, List.find?, h]
      simp [valDefsLoop, runValidators, handleSeq, handleDefsLoop,
        handlersLoop, defaultHandlerDef, jsGet, JsRecord.get?, JsRecord.set,
        regGet, List.find?, normalizeOptionDef, optDef, JsRecord.get?_set_self]

/-- C10 (witness): the falsy-default behaviour at the concrete option
`x2` with switch `--x2` and default `''`. -/
theorem C10_falsy_default_behaviour_witness :
    (JVal.str "").truthy = false ∧
    (((engineRun poEmpty
        [{ optDef "x2" with arg := some (.switches ["--x2"]), dflt := some (.str ""), required := true }]).errorValues =
        some [("x2",
          "Missing required argument in command line `--x2` or environment variable .")] ∧
      (engineRun poEmpty
        [{ optDef "x2" with arg := some (.switches ["--x2"]), dflt := some (.str ""), required := true }]).values = []) ∧
    ((engineRun poEmpty
        [{ optDef "x2" with arg := some (.switches ["--x2"]), dflt := some (.str "") }]).errorValues = none ∧
      (engineRun poEmpty
        [{ optDef "x2" with arg := some (.switches ["--x2"]), dflt := some (.str "") }]).values.get? "x2" =
        some JVal.undef)) :=
  ⟨rfl, C10_falsy_default_behaviour "x2" "--x2" (.str "") rfl⟩

end ArgsAndEnvs
